import Mathlib

/-!
Shallow embedding of the side-hustle inventory/point-of-sale ledger.

Source of truth:
* the SQL schema and triggers in the initial migration
  (tables products / stock_purchases / sales / sale_items with their
  CHECK constraints, the triggers update_product_updated_at,
  update_stock_on_purchase, update_stock_on_sale);
* the migration adding restore_stock_on_sale_delete;
* the React components RecordSale.tsx, Restock, EditSale.tsx,
  ProductCard.tsx, ProductView.tsx and Dashboard.tsx.

Modelling conventions:
* uuid identifiers are opaque tokens, modelled as Nat;
* DECIMAL(10,2) monetary columns are modelled as Rat (exact values);
* integer columns are modelled as Int so that the CHECK constraints
  (stock >= 0 and so on) are meaningful inequalities;
* timestamptz columns are modelled as Nat (seconds since the epoch, the
  time zone is fixed to UTC);
* an SQL statement that violates a CHECK constraint raises an error and
  leaves the database unchanged; this is modelled by Option-valued
  transitions (none = statement failed, state unchanged).
-/

namespace SideHustle

/-- A row of the products table (initial migration, CREATE TABLE products). -/
structure Product where
  id : Nat
  name : String
  description : Option String
  unit_selling_price : Rat
  cost_per_batch : Rat
  units_per_batch : Int
  current_stock : Int
  total_units_sold : Int
  created_at : Nat
  updated_at : Nat
deriving DecidableEq

/-- A row of the stock_purchases table. -/
structure StockPurchase where
  id : Nat
  product_id : Nat
  batches_purchased : Int
  cost_per_batch : Rat
  total_cost : Rat
  units_added : Int
  purchase_date : Nat
  notes : Option String
deriving DecidableEq

/-- A row of the sales table. -/
structure Sale where
  id : Nat
  sale_date : Nat
  total_amount : Rat
  notes : Option String
deriving DecidableEq

/-- A row of the sale_items table. -/
structure SaleItem where
  id : Nat
  sale_id : Nat
  product_id : Nat
  quantity : Int
  unit_price : Rat
  subtotal : Rat
deriving DecidableEq

/-- The database state: the four relations of the schema. -/
structure DBState where
  products : List Product
  stock_purchases : List StockPurchase
  sales : List Sale
  sale_items : List SaleItem
deriving DecidableEq

/-- The row CHECK constraints of the products table:
unit_selling_price >= 0, cost_per_batch >= 0, units_per_batch > 0,
current_stock >= 0, total_units_sold >= 0. -/
def productChecks (p : Product) : Bool :=
  (0 ≤ p.unit_selling_price) ∧ (0 ≤ p.cost_per_batch) ∧
  (0 < p.units_per_batch) ∧ (0 ≤ p.current_stock) ∧ (0 ≤ p.total_units_sold)

/-- The row CHECK constraints of the stock_purchases table:
batches_purchased > 0, cost_per_batch >= 0, total_cost >= 0, units_added > 0. -/
def stockPurchaseChecks (sp : StockPurchase) : Bool :=
  (0 < sp.batches_purchased) ∧ (0 ≤ sp.cost_per_batch) ∧
  (0 ≤ sp.total_cost) ∧ (0 < sp.units_added)

/-- The row CHECK constraint of the sales table: total_amount >= 0. -/
def saleChecks (s : Sale) : Bool := 0 ≤ s.total_amount

/-- The row CHECK constraints of the sale_items table:
quantity > 0, unit_price >= 0, subtotal >= 0. -/
def saleItemChecks (si : SaleItem) : Bool :=
  (0 < si.quantity) ∧ (0 ≤ si.unit_price) ∧ (0 ≤ si.subtotal)

/-- Trigger function update_product_updated_at: BEFORE UPDATE ON products,
sets NEW.updated_at = now(). -/
def update_product_updated_at (now : Nat) (p : Product) : Product :=
  { p with updated_at := now }

/-- The SET clause of the UPDATE in trigger function update_stock_on_purchase:
current_stock = current_stock + NEW.units_added. -/
def update_stock_on_purchase (sp : StockPurchase) (p : Product) : Product :=
  { p with current_stock := p.current_stock + sp.units_added }

/-- The SET clause of the UPDATE in trigger function update_stock_on_sale:
current_stock = current_stock - NEW.quantity,
total_units_sold = total_units_sold + NEW.quantity. -/
def update_stock_on_sale (si : SaleItem) (p : Product) : Product :=
  { p with current_stock := p.current_stock - si.quantity,
           total_units_sold := p.total_units_sold + si.quantity }

/-- Effect of an UPDATE products ... WHERE id = pid statement on one row:
a matching row is rewritten by the SET clause f, then by the BEFORE UPDATE
trigger (updated_at = now()), and must satisfy the table CHECK constraints
(none = constraint violation, the statement errors); a non-matching row is
untouched. -/
def runRowUpdate (now : Nat) (pid : Nat) (f : Product → Product)
    (p : Product) : Option Product :=
  if p.id = pid then
    let p' := update_product_updated_at now (f p)
    if productChecks p' then some p' else none
  else some p

/-- Effect of an UPDATE products ... WHERE id = pid statement on the whole
table: every row is processed by runRowUpdate; if any updated row violates
a CHECK constraint the statement fails as a whole. -/
def runProductsUpdate (now : Nat) (pid : Nat) (f : Product → Product) :
    List Product → Option (List Product)
  | [] => some []
  | p :: ps =>
    match runRowUpdate now pid f p, runProductsUpdate now pid f ps with
    | some q, some qs => some (q :: qs)
    | _, _ => none

/-- INSERT INTO stock_purchases: the new row must satisfy its CHECK
constraints, and the AFTER INSERT trigger update_stock_on_purchase runs the
stock update in the same transaction; if either fails nothing is inserted. -/
def insertStockPurchase (now : Nat) (sp : StockPurchase) (st : DBState) :
    Option DBState :=
  if stockPurchaseChecks sp then
    match runProductsUpdate now sp.product_id (update_stock_on_purchase sp)
        st.products with
    | some ps =>
      some { st with products := ps,
                     stock_purchases := st.stock_purchases ++ [sp] }
    | none => none
  else none

/-- INSERT INTO sales (no trigger on this table). -/
def insertSale (_now : Nat) (s : Sale) (st : DBState) : Option DBState :=
  if saleChecks s then some { st with sales := st.sales ++ [s] } else none

/-- INSERT INTO sale_items: the new row must satisfy its CHECK constraints,
and the AFTER INSERT trigger update_stock_on_sale runs the stock/sold-counter
update in the same transaction; if either fails nothing is inserted. -/
def insertSaleItem (now : Nat) (si : SaleItem) (st : DBState) :
    Option DBState :=
  if saleItemChecks si then
    match runProductsUpdate now si.product_id (update_stock_on_sale si)
        st.products with
    | some ps =>
      some { st with products := ps,
                     sale_items := st.sale_items ++ [si] }
    | none => none
  else none

/-- A multi-row INSERT INTO sale_items is a single atomic statement: each row
is inserted in order (each firing its trigger) and any failure aborts the
whole statement, so either every row lands or none does. -/
def insertSaleItems (now : Nat) : List SaleItem → DBState → Option DBState
  | [], st => some st
  | si :: rest, st =>
    match insertSaleItem now si st with
    | some st1 => insertSaleItems now rest st1
    | none => none

/-- The SQL function restore_stock_on_sale_delete(p_product_id, p_quantity):
UPDATE products SET current_stock = current_stock + p_quantity,
total_units_sold = total_units_sold - p_quantity WHERE id = p_product_id.
The body itself has no bound on p_quantity, but the UPDATE is still subject
to the products table CHECK constraints and to the BEFORE UPDATE trigger. -/
def restore_stock_on_sale_delete (now : Nat) (pid : Nat) (q : Int)
    (st : DBState) : Option DBState :=
  match runProductsUpdate now pid
      (fun p => { p with current_stock := p.current_stock + q,
                         total_units_sold := p.total_units_sold - q })
      st.products with
  | some ps => some { st with products := ps }
  | none => none

/-- EditSale.handleDelete ignores the result of each rpc call to
restore_stock_on_sale_delete: on error the database is unchanged and the
flow continues. -/
def rpcRestore (now : Nat) (pid : Nat) (q : Int) (st : DBState) : DBState :=
  (restore_stock_on_sale_delete now pid q st).getD st

namespace EditSale

/-- The for-loop of EditSale.handleDelete: one rpc call to
restore_stock_on_sale_delete per fetched item, in order, each call's error
ignored. -/
def restoreLoop (now : Nat) (items : List SaleItem) (st : DBState) : DBState :=
  items.foldl (fun s si => rpcRestore now si.product_id si.quantity s) st

/-- EditSale.handleDelete: select product_id, quantity from sale_items where
sale_id = saleId; call restore_stock_on_sale_delete once per item, in order;
then DELETE FROM sales WHERE id = saleId, whose ON DELETE CASCADE removes the
sale's sale_items rows. -/
def handleDelete (now : Nat) (saleId : Nat) (st : DBState) : DBState :=
  let items := st.sale_items.filter (fun si => si.sale_id = saleId)
  let st1 := restoreLoop now items st
  { st1 with sales := st1.sales.filter (fun s => s.id ≠ saleId),
             sale_items := st1.sale_items.filter (fun si => si.sale_id ≠ saleId) }

end EditSale

/-- Sum of the quantities of the sale items of a list that reference a given
product id (the aggregate effect the spec talks about). -/
def soldQty (pid : Nat) : List SaleItem → Int
  | [] => 0
  | si :: rest => (if si.product_id = pid then si.quantity else 0) + soldQty pid rest

/-- Sum of the units_added of the stock purchases of a list that reference a
given product id. -/
def addedQty (pid : Nat) : List StockPurchase → Int
  | [] => 0
  | sp :: rest => (if sp.product_id = pid then sp.units_added else 0) + addedQty pid rest

/-- products.find(p => p.id === pid) where pid comes from a select whose empty
option is the empty string, modelled as none. -/
def findProduct (products : List Product) : Option Nat → Option Product
  | none => none
  | some pid => products.find? (fun p => p.id = pid)

namespace RecordSale

/-- One entry of the lineItems state of RecordSale: product_id is the empty
string (none) until a product is chosen. The local drag id is irrelevant and
omitted. -/
structure SaleLineItem where
  product_id : Option Nat
  quantity : Int
deriving DecidableEq

/-- RecordSale.calculateTotal: fold over the line items, adding
unit_selling_price * quantity for items whose product resolves and whose
quantity is positive. -/
def calculateTotal (products : List Product) (lineItems : List SaleLineItem) : Rat :=
  lineItems.foldl
    (fun total item =>
      match findProduct products item.product_id with
      | some product =>
        if (0 : Int) < item.quantity then
          total + product.unit_selling_price * (item.quantity : Rat)
        else total
      | none => total)
    0

/-- The insufficient-stock alert text built by RecordSale.validateStock. -/
def insufficientMsg (product : Product) (qty : Int) : String :=
  "Not enough stock for " ++ product.name ++ ". Available: " ++
    toString product.current_stock ++ ", Requested: " ++ toString qty

/-- RecordSale.validateStock: scan the line items in order; the first item
whose product resolves and whose quantity exceeds that product's
current_stock yields the error message; items with no resolving product are
skipped. -/
def validateStock (products : List Product) : List SaleLineItem → Option String
  | [] => none
  | item :: rest =>
    match findProduct products item.product_id with
    | some product =>
      if product.current_stock < item.quantity then
        some (insufficientMsg product item.quantity)
      else validateStock products rest
    | none => validateStock products rest

/-- Outcome of a submit: rejected before any write (one of the two alert
paths), saved, or failed against the store (caught by the catch block). -/
inductive SubmitOutcome where
  | rejected (msg : String)
  | saved
  | failed
deriving DecidableEq

/-- The saleItems array built in RecordSale.handleSubmit: one row per line
item, with unit_price snapshotting the product's unit_selling_price and
subtotal = unit_selling_price * quantity. The non-null assertion on the
product lookup is modelled as failure of the whole construction (the runtime
TypeError lands in the catch block). Row ids are store-generated opaque
tokens, modelled as 0. -/
def buildSaleItems (products : List Product) (saleId : Nat) :
    List SaleLineItem → Option (List SaleItem)
  | [] => some []
  | item :: rest =>
    match findProduct products item.product_id with
    | some product =>
      match buildSaleItems products saleId rest with
      | some sis =>
        some ({ id := 0, sale_id := saleId, product_id := product.id,
                quantity := item.quantity,
                unit_price := product.unit_selling_price,
                subtotal := product.unit_selling_price * (item.quantity : Rat) } :: sis)
      | none => none
    | none => none

/-- RecordSale.handleSubmit: validate stock, then require a product on every
line item, and only then write: insert the sale header (total_amount from
calculateTotal), then the sale_items rows in one statement. A store failure
after the header insert leaves the header in place (the two inserts are
separate statements). -/
def handleSubmit (now saleId : Nat) (products : List Product)
    (lineItems : List SaleLineItem) (notes : Option String) (st : DBState) :
    SubmitOutcome × DBState :=
  match validateStock products lineItems with
  | some msg => (.rejected msg, st)
  | none =>
    if lineItems.any (fun item => item.product_id = none) then
      (.rejected "Please select a product for all line items", st)
    else
      let totalAmount := calculateTotal products lineItems
      match insertSale now
          { id := saleId, sale_date := now, total_amount := totalAmount,
            notes := notes } st with
      | none => (.failed, st)
      | some st1 =>
        match buildSaleItems products saleId lineItems with
        | none => (.failed, st1)
        | some sis =>
          match insertSaleItems now sis st1 with
          | none => (.failed, st1)
          | some st2 => (.saved, st2)

end RecordSale

namespace Restock

/-- Restock's totalCost: parseFloat(batchesPurchased) * parseFloat(costPerBatch)
when a product is selected and both numeric fields are non-empty, else 0
(the && chain over the raw input strings). -/
def totalCost (selectedProductId : Option Nat) (batchesPurchased : Option Int)
    (costPerBatch : Option Rat) : Rat :=
  match selectedProductId, batchesPurchased, costPerBatch with
  | some _, some b, some c => (b : Rat) * c
  | _, _, _ => 0

/-- Restock's unitsAdded: selectedProduct.units_per_batch * parseInt(batchesPurchased)
when the product resolves and the batches field is non-empty, else 0. -/
def unitsAdded (selectedProduct : Option Product) (batchesPurchased : Option Int) : Int :=
  match selectedProduct, batchesPurchased with
  | some p, some b => p.units_per_batch * b
  | _, _ => 0

/-- Restock.handleSubmit: early return when no product is selected, then
insert the stock_purchases row built from the form state. Empty numeric
fields (NaN after parsing) are modelled as no record, since the store rejects
such a row; the form marks both fields required. Returns the constructed
record and the insert's result. -/
def handleSubmit (now purchaseId : Nat) (products : List Product)
    (selectedProductId : Option Nat) (batchesPurchased : Option Int)
    (costPerBatch : Option Rat) (notes : Option String) (st : DBState) :
    Option (StockPurchase × Option DBState) :=
  match selectedProductId, findProduct products selectedProductId,
      batchesPurchased, costPerBatch with
  | some pid, some _, some b, some c =>
    let sp : StockPurchase :=
      { id := purchaseId, product_id := pid,
        batches_purchased := b, cost_per_batch := c,
        total_cost := totalCost selectedProductId batchesPurchased costPerBatch,
        units_added := unitsAdded (findProduct products selectedProductId)
          batchesPurchased,
        purchase_date := now, notes := notes }
    some (sp, insertStockPurchase now sp st)
  | _, _, _, _ => none

end Restock

/-- The metrics record assembled by ProductCard.fetchMetrics and
ProductView.fetchData. -/
structure Metrics where
  totalRevenue : Rat
  totalCost : Rat
  profit : Rat
  profitMargin : Rat
deriving DecidableEq

namespace ProductCard

/-- ProductCard.fetchMetrics: reduce the product's sale_items subtotals and
stock_purchases total_costs, profit = revenue - cost, and
profitMargin = profit / revenue * 100 when revenue > 0, else 0. -/
def fetchMetrics (salesData : List SaleItem)
    (purchasesData : List StockPurchase) : Metrics :=
  let totalRevenue := salesData.foldl (fun sum item => sum + item.subtotal) 0
  let totalCost :=
    purchasesData.foldl (fun sum purchase => sum + purchase.total_cost) 0
  let profit := totalRevenue - totalCost
  let profitMargin := if 0 < totalRevenue then profit / totalRevenue * 100 else 0
  ⟨totalRevenue, totalCost, profit, profitMargin⟩

end ProductCard

namespace ProductView

/-- The metrics part of ProductView.fetchData: same reduction as
ProductCard.fetchMetrics over the product's sale items (with dates attached)
and purchases. -/
def fetchData (salesWithDates : List SaleItem)
    (purchasesData : List StockPurchase) : Metrics :=
  let totalRevenue := salesWithDates.foldl (fun sum sale => sum + sale.subtotal) 0
  let totalCost :=
    purchasesData.foldl (fun sum purchase => sum + purchase.total_cost) 0
  let profit := totalRevenue - totalCost
  let profitMargin := if 0 < totalRevenue then profit / totalRevenue * 100 else 0
  ⟨totalRevenue, totalCost, profit, profitMargin⟩

end ProductView

namespace Dashboard

/-- Calendar day of a timestamp. The model fixes the local time zone to UTC,
so toDateString() comparison and toISOString() day truncation agree on which
day a timestamp belongs to; the C9 discrepancy below exists even then. -/
def dayOf (t : Nat) : Nat := t / 86400

/-- Dashboard.isToday: new Date(date).toDateString() === new Date().toDateString(),
i.e. the sale's calendar day equals the current calendar day. -/
def isToday (now t : Nat) : Bool := dayOf t = dayOf now

/-- The timestamp denoted by toISOString().split('T')[0] when the resulting
date-only string is compared against a timestamptz column: midnight of that
day. -/
def dateStrTimestamp (t : Nat) : Nat := dayOf t * 86400

/-- Membership test of Dashboard.fetchFilteredData's queries for the today
window: sale_date >= startDateStr AND sale_date <= endDateStr, where both
bounds are today's date-only string, i.e. midnight today. -/
def metricsTodayFilter (now t : Nat) : Bool :=
  dateStrTimestamp now ≤ t ∧ t ≤ dateStrTimestamp now

end Dashboard

/-- Per-row effect of a batch of sale-item inserts on the products table: id
and the operator-owned fields are untouched, current_stock drops by the
quantity the batch sells against the row, total_units_sold grows by it. -/
def SaleShift (items : List SaleItem) (p p' : Product) : Prop :=
  p'.id = p.id ∧ p'.name = p.name ∧ p'.description = p.description ∧
  p'.unit_selling_price = p.unit_selling_price ∧
  p'.cost_per_batch = p.cost_per_batch ∧
  p'.units_per_batch = p.units_per_batch ∧
  p'.created_at = p.created_at ∧
  p'.current_stock = p.current_stock - soldQty p.id items ∧
  p'.total_units_sold = p.total_units_sold + soldQty p.id items

/-- Per-row effect of a batch of stock-purchase inserts on the products
table: id and every field other than current_stock and updated_at are
untouched, current_stock grows by the units the batch adds to the row. -/
def PurchaseShift (sps : List StockPurchase) (p p' : Product) : Prop :=
  p'.id = p.id ∧ p'.name = p.name ∧ p'.description = p.description ∧
  p'.unit_selling_price = p.unit_selling_price ∧
  p'.cost_per_batch = p.cost_per_batch ∧
  p'.units_per_batch = p.units_per_batch ∧
  p'.created_at = p.created_at ∧
  p'.current_stock = p.current_stock + addedQty p.id sps ∧
  p'.total_units_sold = p.total_units_sold

/-- Per-row effect of a run of successful restore_stock_on_sale_delete calls,
one per item of a batch: the exact inverse of SaleShift on the counters. -/
def RestoreShift (items : List SaleItem) (p p' : Product) : Prop :=
  p'.id = p.id ∧ p'.name = p.name ∧ p'.description = p.description ∧
  p'.unit_selling_price = p.unit_selling_price ∧
  p'.cost_per_batch = p.cost_per_batch ∧
  p'.units_per_batch = p.units_per_batch ∧
  p'.created_at = p.created_at ∧
  p'.current_stock = p.current_stock + soldQty p.id items ∧
  p'.total_units_sold = p.total_units_sold - soldQty p.id items

/-- A sequence of stock purchases recorded one at a time (spec section 8:
sequences of StockPurchase creations on a product). -/
def insertStockPurchases (now : Nat) :
    List StockPurchase → DBState → Option DBState
  | [], st => some st
  | sp :: rest, st =>
    match insertStockPurchase now sp st with
    | some st1 => insertStockPurchases now rest st1
    | none => none

/-! Concrete test data, following the worked example of spec section 8
(units_per_batch 12, cost_per_batch 60, unit_selling_price 8). -/

/-- A product with 24 units in stock and nothing sold yet. -/
def prodA : Product :=
  { id := 1, name := "Cola", description := none, unit_selling_price := 8,
    cost_per_batch := 60, units_per_batch := 12, current_stock := 24,
    total_units_sold := 0, created_at := 0, updated_at := 0 }

/-- A database holding only prodA. -/
def dbA : DBState := ⟨[prodA], [], [], []⟩

/-- Sale 5 sells 3 units of product 1 at 8 each. -/
def itemA1 : SaleItem :=
  { id := 10, sale_id := 5, product_id := 1, quantity := 3, unit_price := 8,
    subtotal := 24 }

/-- Sale 5 also sells 2 more units of product 1. -/
def itemA2 : SaleItem :=
  { id := 11, sale_id := 5, product_id := 1, quantity := 2, unit_price := 8,
    subtotal := 16 }

/-- dbA after the two-line sale lands. -/
def dbA2 : DBState := (insertSaleItems 7 [itemA1, itemA2] dbA).getD dbA

/-- dbA after the single item itemA1 lands. -/
def dbB : DBState := (insertSaleItem 7 itemA1 dbA).getD dbA

/-- A product that is out of stock. -/
def prodZ : Product :=
  { id := 2, name := "Chips", description := none, unit_selling_price := 5,
    cost_per_batch := 40, units_per_batch := 10, current_stock := 0,
    total_units_sold := 3, created_at := 0, updated_at := 0 }

/-- A database holding only the out-of-stock prodZ. -/
def dbZ : DBState := ⟨[prodZ], [], [], []⟩

/-- An attempt to sell one unit of the out-of-stock product 2. -/
def itemZ : SaleItem :=
  { id := 20, sale_id := 6, product_id := 2, quantity := 1, unit_price := 5,
    subtotal := 5 }

/-- A restock of 2 batches (24 units) of product 1. -/
def purchC : StockPurchase :=
  { id := 30, product_id := 1, batches_purchased := 2, cost_per_batch := 60,
    total_cost := 120, units_added := 24, purchase_date := 7, notes := none }

/-- dbA after the restock purchC lands at time 7. -/
def dbC : DBState := (insertStockPurchase 7 purchC dbA).getD dbA

/-- dbA after the one-purchase sequence [purchC] lands at time 7. -/
def dbP : DBState := (insertStockPurchases 7 [purchC] dbA).getD dbA

/-- A product that has sold 5 units, so a restore of 5 is admissible. -/
def prodD : Product :=
  { id := 1, name := "Cola", description := none, unit_selling_price := 8,
    cost_per_batch := 60, units_per_batch := 12, current_stock := 19,
    total_units_sold := 5, created_at := 0, updated_at := 0 }

/-- A database holding only prodD. -/
def dbD : DBState := ⟨[prodD], [], [], []⟩

/-- dbD after restore_stock_on_sale_delete(1, 5) at time 9. -/
def dbD2 : DBState := (restore_stock_on_sale_delete 9 1 5 dbD).getD dbD

/-- A line item asking for 3 units of product 1. -/
def lineA : RecordSale.SaleLineItem := ⟨some 1, 3⟩

/-- A line item asking for 100 units of product 1 (more than prodA has). -/
def lineBig : RecordSale.SaleLineItem := ⟨some 1, 100⟩

/-- The database produced by submitting the one-line sale lineA against
dbA. -/
def dbE : DBState :=
  (RecordSale.handleSubmit 7 5 [prodA] [lineA] none dbA).2

/-- The stock_purchases record the restock form builds for 2 batches of
product 1 at an entered cost of 55 per batch. -/
def spW : StockPurchase :=
  { id := 31, product_id := 1, batches_purchased := 2, cost_per_batch := 55,
    total_cost := Restock.totalCost (some 1) (some 2) (some 55),
    units_added := Restock.unitsAdded (findProduct [prodA] (some 1)) (some 2),
    purchase_date := 7, notes := none }

end SideHustle

namespace SideHustle

section Lemmas

/-- Composition of two pointwise list relations. -/
theorem forall2_trans {α β γ : Type} {R : α → β → Prop} {S : β → γ → Prop}
    {T : α → γ → Prop} (h : ∀ a b c, R a b → S b c → T a c) :
    ∀ {l1 : List α} {l2 : List β} {l3 : List γ},
      List.Forall₂ R l1 l2 → List.Forall₂ S l2 l3 → List.Forall₂ T l1 l3 := by
  intro l1 l2 l3 h12 h23
  induction h12 generalizing l3 with
  | nil => cases h23; exact List.Forall₂.nil
  | cons hab _ ih =>
    cases h23 with
    | cons hbc h23 => exact List.Forall₂.cons (h _ _ _ hab hbc) (ih h23)

/-- A reflexive pointwise relation holds between a list and itself. -/
theorem forall2_refl {α : Type} {R : α → α → Prop} (h : ∀ a, R a a) :
    ∀ l : List α, List.Forall₂ R l l := by
  intro l
  induction l with
  | nil => exact List.Forall₂.nil
  | cons a l ih => exact List.Forall₂.cons (h a) ih

/-- Weakening of a pointwise list relation. -/
theorem forall2_imp {α β : Type} {R S : α → β → Prop}
    (h : ∀ a b, R a b → S a b) {l1 : List α} {l2 : List β} :
    List.Forall₂ R l1 l2 → List.Forall₂ S l1 l2 := by
  intro h12
  induction h12 with
  | nil => exact List.Forall₂.nil
  | cons hab _ ih => exact List.Forall₂.cons (h _ _ hab) ih

/-- Case analysis on a successful single-row update. -/
theorem runRowUpdate_eq_some {now pid : Nat} {f : Product → Product}
    {p p' : Product} (h : runRowUpdate now pid f p = some p') :
    (p.id = pid ∧ p' = update_product_updated_at now (f p) ∧
      productChecks p' = true) ∨ (p.id ≠ pid ∧ p' = p) := by
  by_cases hid : p.id = pid
  · left
    refine ⟨hid, ?_⟩
    simp only [runRowUpdate, hid, if_true] at h
    by_cases hc : productChecks (update_product_updated_at now (f p)) = true
    · simp only [hc, if_true, Option.some.injEq] at h
      exact ⟨h.symm, h ▸ hc⟩
    · simp only [hc] at h
      simp at h
  · right
    simp only [runRowUpdate, hid, if_false, Option.some.injEq] at h
    exact ⟨hid, h.symm⟩

/-- A successful table update relates old and new rows pointwise. -/
theorem runProductsUpdate_forall2 {now pid : Nat} {f : Product → Product} :
    ∀ {ps ps' : List Product}, runProductsUpdate now pid f ps = some ps' →
      List.Forall₂ (fun p p' => runRowUpdate now pid f p = some p') ps ps' := by
  intro ps
  induction ps with
  | nil =>
    intro ps' h
    simp only [runProductsUpdate, Option.some.injEq] at h
    exact h ▸ List.Forall₂.nil
  | cons p ps ih =>
    intro ps' h
    simp only [runProductsUpdate] at h
    cases hq : runRowUpdate now pid f p with
    | none => rw [hq] at h; exact absurd h (by simp)
    | some q =>
      rw [hq] at h
      cases hqs : runProductsUpdate now pid f ps with
      | none => rw [hqs] at h; exact absurd h (by simp)
      | some qs =>
        rw [hqs] at h
        simp only [Option.some.injEq] at h
        exact h ▸ List.Forall₂.cons hq (ih hqs)

/-- A table update succeeds, with the evident result, as soon as every
matched row passes the CHECK constraints after the rewrite. -/
theorem runProductsUpdate_eq_map {now pid : Nat} {f : Product → Product}
    {ps : List Product}
    (h : ∀ p ∈ ps, p.id = pid →
      productChecks (update_product_updated_at now (f p)) = true) :
    runProductsUpdate now pid f ps =
      some (ps.map (fun p =>
        if p.id = pid then update_product_updated_at now (f p) else p)) := by
  induction ps with
  | nil => rfl
  | cons p ps ih =>
    have hp : runRowUpdate now pid f p =
        some (if p.id = pid then update_product_updated_at now (f p) else p) := by
      by_cases hid : p.id = pid
      · simp only [runRowUpdate, hid, if_true,
          h p (List.mem_cons_self p ps) hid]
      · simp only [runRowUpdate, hid, if_false]
    have hps := ih (fun q hq => h q (List.mem_cons_of_mem p hq))
    simp only [runProductsUpdate, hp, hps, List.map_cons]

/-- Right-to-left membership transfer along a pointwise list relation. -/
theorem forall2_mem_right {α β : Type} {R : α → β → Prop}
    {l1 : List α} {l2 : List β} (h : List.Forall₂ R l1 l2) :
    ∀ b ∈ l2, ∃ a ∈ l1, R a b := by
  induction h with
  | nil => intro b hb; cases hb
  | cons hab _ ih =>
    intro b hb
    rcases List.mem_cons.mp hb with rfl | hb
    · exact ⟨_, List.mem_cons_self _ _, hab⟩
    · obtain ⟨a, ha, hr⟩ := ih b hb
      exact ⟨a, List.mem_cons_of_mem _ ha, hr⟩

/-- Anatomy of one successful sale_items insert: the row passed its CHECK
constraints, it was appended to sale_items, the other two tables are
untouched, and each products row either matches the item's product_id and
was rewritten by the trigger (passing the products CHECK constraints) or is
unchanged. -/
theorem insertSaleItem_eq_some {now : Nat} {si : SaleItem} {st st' : DBState}
    (h : insertSaleItem now si st = some st') :
    saleItemChecks si = true ∧
    st'.sale_items = st.sale_items ++ [si] ∧
    st'.sales = st.sales ∧
    st'.stock_purchases = st.stock_purchases ∧
    List.Forall₂ (fun p p' =>
      (p.id = si.product_id ∧
        p' = update_product_updated_at now (update_stock_on_sale si p) ∧
        productChecks p' = true) ∨
      (p.id ≠ si.product_id ∧ p' = p)) st.products st'.products := by
  simp only [insertSaleItem] at h
  by_cases hc : saleItemChecks si = true
  · rw [if_pos hc] at h
    cases hps : runProductsUpdate now si.product_id (update_stock_on_sale si)
        st.products with
    | none => rw [hps] at h; exact absurd h (by simp)
    | some ps =>
      rw [hps] at h
      simp only [Option.some.injEq] at h
      subst h
      refine ⟨hc, rfl, rfl, rfl, ?_⟩
      exact forall2_imp (fun p p' hp => runRowUpdate_eq_some hp)
        (runProductsUpdate_forall2 hps)
  · rw [if_neg hc] at h; exact absurd h (by simp)

/-- Anatomy of one successful stock_purchases insert, mirror image of
insertSaleItem_eq_some. -/
theorem insertStockPurchase_eq_some {now : Nat} {sp : StockPurchase}
    {st st' : DBState} (h : insertStockPurchase now sp st = some st') :
    stockPurchaseChecks sp = true ∧
    st'.stock_purchases = st.stock_purchases ++ [sp] ∧
    st'.sales = st.sales ∧
    st'.sale_items = st.sale_items ∧
    List.Forall₂ (fun p p' =>
      (p.id = sp.product_id ∧
        p' = update_product_updated_at now (update_stock_on_purchase sp p) ∧
        productChecks p' = true) ∨
      (p.id ≠ sp.product_id ∧ p' = p)) st.products st'.products := by
  simp only [insertStockPurchase] at h
  by_cases hc : stockPurchaseChecks sp = true
  · rw [if_pos hc] at h
    cases hps : runProductsUpdate now sp.product_id (update_stock_on_purchase sp)
        st.products with
    | none => rw [hps] at h; exact absurd h (by simp)
    | some ps =>
      rw [hps] at h
      simp only [Option.some.injEq] at h
      subst h
      refine ⟨hc, rfl, rfl, rfl, ?_⟩
      exact forall2_imp (fun p p' hp => runRowUpdate_eq_some hp)
        (runProductsUpdate_forall2 hps)
  · rw [if_neg hc] at h; exact absurd h (by simp)

/-- One sale-item step composed with the effect of the rest of the batch. -/
theorem saleShift_cons {now : Nat} {si : SaleItem} {rest : List SaleItem}
    {a b c : Product}
    (hab : (a.id = si.product_id ∧
        b = update_product_updated_at now (update_stock_on_sale si a) ∧
        productChecks b = true) ∨ (a.id ≠ si.product_id ∧ b = a))
    (hbc : SaleShift rest b c) : SaleShift (si :: rest) a c := by
  obtain ⟨hid, hname, hdesc, hprice, hcost, hupb, hcreated, hstock, hsold⟩ := hbc
  rcases hab with ⟨heq, hb, -⟩ | ⟨hne, hb⟩
  · subst hb
    simp only [update_product_updated_at, update_stock_on_sale] at hid hname hdesc hprice hcost hupb hcreated hstock hsold
    refine ⟨hid, hname, hdesc, hprice, hcost, hupb, hcreated, ?_, ?_⟩
    · simp only [soldQty, hid]
      rw [if_pos heq.symm]
      omega
    · simp only [soldQty, hid]
      rw [if_pos heq.symm]
      omega
  · subst hb
    refine ⟨hid, hname, hdesc, hprice, hcost, hupb, hcreated, ?_, ?_⟩
    · simp only [soldQty, hid]
      rw [if_neg (fun hx => hne hx.symm)]
      omega
    · simp only [soldQty, hid]
      rw [if_neg (fun hx => hne hx.symm)]
      omega

/-- One stock-purchase step composed with the effect of the rest of the
batch. -/
theorem purchaseShift_cons {now : Nat} {sp : StockPurchase}
    {rest : List StockPurchase} {a b c : Product}
    (hab : (a.id = sp.product_id ∧
        b = update_product_updated_at now (update_stock_on_purchase sp a) ∧
        productChecks b = true) ∨ (a.id ≠ sp.product_id ∧ b = a))
    (hbc : PurchaseShift rest b c) : PurchaseShift (sp :: rest) a c := by
  obtain ⟨hid, hname, hdesc, hprice, hcost, hupb, hcreated, hstock, hsold⟩ := hbc
  rcases hab with ⟨heq, hb, -⟩ | ⟨hne, hb⟩
  · subst hb
    simp only [update_product_updated_at, update_stock_on_purchase] at hid hname hdesc hprice hcost hupb hcreated hstock hsold
    refine ⟨hid, hname, hdesc, hprice, hcost, hupb, hcreated, ?_, hsold⟩
    simp only [addedQty, hid]
    rw [if_pos heq.symm]
    omega
  · subst hb
    refine ⟨hid, hname, hdesc, hprice, hcost, hupb, hcreated, ?_, hsold⟩
    simp only [addedQty, hid]
    rw [if_neg (fun hx => hne hx.symm)]
    omega

/-- Anatomy of a successful batch of sale_items inserts: every row passed its
CHECK constraints, the rows were appended in order, sales and stock_purchases
are untouched, and the products table shifted by the batch totals. -/
theorem insertSaleItems_eq_some {now : Nat} :
    ∀ {items : List SaleItem} {st st' : DBState},
      insertSaleItems now items st = some st' →
      (∀ si ∈ items, saleItemChecks si = true) ∧
      st'.sale_items = st.sale_items ++ items ∧
      st'.sales = st.sales ∧
      st'.stock_purchases = st.stock_purchases ∧
      List.Forall₂ (SaleShift items) st.products st'.products := by
  intro items
  induction items with
  | nil =>
    intro st st' h
    simp only [insertSaleItems, Option.some.injEq] at h
    subst h
    refine ⟨by simp, by simp, rfl, rfl, ?_⟩
    exact forall2_refl (fun p => by
      simp [SaleShift, soldQty]) st.products
  | cons si rest ih =>
    intro st st' h
    simp only [insertSaleItems] at h
    cases h1 : insertSaleItem now si st with
    | none => rw [h1] at h; exact absurd h (by simp)
    | some st1 =>
      rw [h1] at h
      obtain ⟨hck, hitems, hsales, hsp, hff⟩ := insertSaleItem_eq_some h1
      obtain ⟨hckr, hitemsr, hsalesr, hspr, hffr⟩ := ih h
      refine ⟨?_, ?_, hsalesr.trans hsales, hspr.trans hsp, ?_⟩
      · intro x hx
        rcases List.mem_cons.mp hx with rfl | hx
        · exact hck
        · exact hckr x hx
      · rw [hitemsr, hitems, List.append_assoc]; rfl
      · refine forall2_trans ?_ hff hffr
        intro a b c hab hbc
        exact saleShift_cons hab hbc

/-- Anatomy of a successful sequence of stock_purchases inserts. -/
theorem insertStockPurchases_eq_some {now : Nat} :
    ∀ {sps : List StockPurchase} {st st' : DBState},
      insertStockPurchases now sps st = some st' →
      (∀ sp ∈ sps, stockPurchaseChecks sp = true) ∧
      st'.stock_purchases = st.stock_purchases ++ sps ∧
      st'.sales = st.sales ∧
      st'.sale_items = st.sale_items ∧
      List.Forall₂ (PurchaseShift sps) st.products st'.products := by
  intro sps
  induction sps with
  | nil =>
    intro st st' h
    simp only [insertStockPurchases, Option.some.injEq] at h
    subst h
    refine ⟨by simp, by simp, rfl, rfl, ?_⟩
    exact forall2_refl (fun p => by
      simp [PurchaseShift, addedQty]) st.products
  | cons sp rest ih =>
    intro st st' h
    simp only [insertStockPurchases] at h
    cases h1 : insertStockPurchase now sp st with
    | none => rw [h1] at h; exact absurd h (by simp)
    | some st1 =>
      rw [h1] at h
      obtain ⟨hck, hsp, hsales, hitems, hff⟩ := insertStockPurchase_eq_some h1
      obtain ⟨hckr, hspr, hsalesr, hitemsr, hffr⟩ := ih h
      refine ⟨?_, ?_, hsalesr.trans hsales, hitemsr.trans hitems, ?_⟩
      · intro x hx
        rcases List.mem_cons.mp hx with rfl | hx
        · exact hck
        · exact hckr x hx
      · rw [hspr, hsp, List.append_assoc]; rfl
      · refine forall2_trans ?_ hff hffr
        intro a b c hab hbc
        exact purchaseShift_cons hab hbc

/-- The products CHECK constraints, as a proposition. -/
theorem productChecks_iff {p : Product} : productChecks p = true ↔
    (0 ≤ p.unit_selling_price ∧ 0 ≤ p.cost_per_batch ∧
      0 < p.units_per_batch ∧ 0 ≤ p.current_stock ∧ 0 ≤ p.total_units_sold) := by
  simp [productChecks]

/-- The sale_items CHECK constraints, as a proposition. -/
theorem saleItemChecks_iff {si : SaleItem} : saleItemChecks si = true ↔
    (0 < si.quantity ∧ 0 ≤ si.unit_price ∧ 0 ≤ si.subtotal) := by
  simp [saleItemChecks]

/-- The stock_purchases CHECK constraints, as a proposition. -/
theorem stockPurchaseChecks_iff {sp : StockPurchase} :
    stockPurchaseChecks sp = true ↔
    (0 < sp.batches_purchased ∧ 0 ≤ sp.cost_per_batch ∧
      0 ≤ sp.total_cost ∧ 0 < sp.units_added) := by
  simp [stockPurchaseChecks]

/-- A batch of items with positive quantities sells a non-negative total
against any product. -/
theorem soldQty_nonneg {pid : Nat} :
    ∀ (items : List SaleItem), (∀ si ∈ items, (0 : Int) < si.quantity) →
      0 ≤ soldQty pid items := by
  intro items
  induction items with
  | nil => intro _; simp [soldQty]
  | cons si rest ih =>
    intro h
    have h1 := h si (List.mem_cons_self _ _)
    have h2 := ih (fun x hx => h x (List.mem_cons_of_mem _ hx))
    simp only [soldQty]
    by_cases hm : si.product_id = pid
    · rw [if_pos hm]; omega
    · rw [if_neg hm]; omega

/-- A list is pointwise related to its image under a map. -/
theorem forall2_map {α β : Type} (g : α → β) :
    ∀ l : List α, List.Forall₂ (fun a b => b = g a) l (l.map g) := by
  intro l
  induction l with
  | nil => exact List.Forall₂.nil
  | cons a l ih => exact List.Forall₂.cons rfl ih

/-- Anatomy of a successful sales insert. -/
theorem insertSale_eq_some {now : Nat} {s : Sale} {st st' : DBState}
    (h : insertSale now s st = some st') :
    saleChecks s = true ∧ st' = { st with sales := st.sales ++ [s] } := by
  simp only [insertSale] at h
  by_cases hc : saleChecks s = true
  · rw [if_pos hc] at h
    simp only [Option.some.injEq] at h
    exact ⟨hc, h.symm⟩
  · rw [if_neg hc] at h; exact absurd h (by simp)

/-- A batch of sale-item inserts keeps every products row inside the table
CHECK constraints. -/
theorem saleItems_checks_preserved {now : Nat} :
    ∀ {items : List SaleItem} {st st' : DBState},
      insertSaleItems now items st = some st' →
      (∀ p ∈ st.products, productChecks p = true) →
      ∀ p' ∈ st'.products, productChecks p' = true := by
  intro items
  induction items with
  | nil =>
    intro st st' h hall
    simp only [insertSaleItems, Option.some.injEq] at h
    exact h ▸ hall
  | cons si rest ih =>
    intro st st' h hall
    simp only [insertSaleItems] at h
    cases h1 : insertSaleItem now si st with
    | none => rw [h1] at h; exact absurd h (by simp)
    | some st1 =>
      rw [h1] at h
      obtain ⟨-, -, -, -, hff⟩ := insertSaleItem_eq_some h1
      refine ih h ?_
      intro p1 hp1
      obtain ⟨p, hp, hr⟩ := forall2_mem_right hff p1 hp1
      rcases hr with ⟨-, -, hck⟩ | ⟨-, he⟩
      · exact hck
      · exact he ▸ hall p hp

/-- restore_stock_on_sale_delete succeeds, with the evident row rewrite, as
soon as every matched row still satisfies the products CHECK constraints
after the counter adjustment. -/
theorem restore_eq_map {now pid : Nat} {q : Int} {st : DBState}
    (h : ∀ p ∈ st.products, p.id = pid →
      productChecks (update_product_updated_at now
        { p with current_stock := p.current_stock + q,
                 total_units_sold := p.total_units_sold - q }) = true) :
    restore_stock_on_sale_delete now pid q st =
      some { st with products := st.products.map (fun p =>
        if p.id = pid then
          update_product_updated_at now
            { p with current_stock := p.current_stock + q,
                     total_units_sold := p.total_units_sold - q }
        else p) } := by
  simp only [restore_stock_on_sale_delete, runProductsUpdate_eq_map h]

/-- One restore call composed with the effect of the remaining calls. -/
theorem restoreShift_cons {now : Nat} {si : SaleItem} {rest : List SaleItem}
    {a c : Product}
    (hbc : RestoreShift rest
      (if a.id = si.product_id then
        update_product_updated_at now
          { a with current_stock := a.current_stock + si.quantity,
                   total_units_sold := a.total_units_sold - si.quantity }
      else a) c) :
    RestoreShift (si :: rest) a c := by
  by_cases hm : a.id = si.product_id
  · rw [if_pos hm] at hbc
    obtain ⟨hid, hname, hdesc, hprice, hcost, hupb, hcreated, hstock, hsold⟩ := hbc
    simp only [update_product_updated_at] at hid hname hdesc hprice hcost hupb hcreated hstock hsold
    refine ⟨hid, hname, hdesc, hprice, hcost, hupb, hcreated, ?_, ?_⟩
    · simp only [soldQty, hid]
      rw [if_pos hm.symm]
      omega
    · simp only [soldQty, hid]
      rw [if_pos hm.symm]
      omega
  · rw [if_neg hm] at hbc
    obtain ⟨hid, hname, hdesc, hprice, hcost, hupb, hcreated, hstock, hsold⟩ := hbc
    refine ⟨hid, hname, hdesc, hprice, hcost, hupb, hcreated, ?_, ?_⟩
    · simp only [soldQty, hid]
      rw [if_neg (fun hx => hm hx.symm)]
      omega
    · simp only [soldQty, hid]
      rw [if_neg (fun hx => hm hx.symm)]
      omega

/-- The restore loop of EditSale.handleDelete: when the state satisfies the
table constraints and each product has sold at least what the batch asks to
give back, every rpc call succeeds and the loop adds the batch totals back to
current_stock and removes them from total_units_sold, touching nothing
else. -/
theorem restoreLoop_effect {now : Nat} :
    ∀ (items : List SaleItem) (st : DBState),
      (∀ si ∈ items, (0 : Int) < si.quantity) →
      (∀ p ∈ st.products, productChecks p = true ∧
        soldQty p.id items ≤ p.total_units_sold) →
      (EditSale.restoreLoop now items st).sales = st.sales ∧
      (EditSale.restoreLoop now items st).sale_items = st.sale_items ∧
      (EditSale.restoreLoop now items st).stock_purchases = st.stock_purchases ∧
      List.Forall₂ (RestoreShift items) st.products
        (EditSale.restoreLoop now items st).products := by
  intro items
  induction items with
  | nil =>
    intro st _ _
    refine ⟨rfl, rfl, rfl, ?_⟩
    exact forall2_refl (fun p => by simp [RestoreShift, soldQty]) st.products
  | cons si rest ih =>
    intro st hq hp
    have hq0 : (0 : Int) < si.quantity := hq si (List.mem_cons_self _ _)
    have hqr : ∀ x ∈ rest, (0 : Int) < x.quantity :=
      fun x hx => hq x (List.mem_cons_of_mem _ hx)
    have hmap : restore_stock_on_sale_delete now si.product_id si.quantity st =
        some { st with products := st.products.map (fun p =>
          if p.id = si.product_id then
            update_product_updated_at now
              { p with current_stock := p.current_stock + si.quantity,
                       total_units_sold := p.total_units_sold - si.quantity }
          else p) } := by
      apply restore_eq_map
      intro p hpm hpid
      obtain ⟨hck, hle⟩ := hp p hpm
      rw [productChecks_iff] at hck
      rw [productChecks_iff]
      simp only [update_product_updated_at]
      have hrest : (0 : Int) ≤ soldQty p.id rest := soldQty_nonneg rest hqr
      simp only [soldQty] at hle
      rw [if_pos hpid.symm] at hle
      refine ⟨hck.1, hck.2.1, hck.2.2.1, ?_, ?_⟩ <;> omega
    have hstep : EditSale.restoreLoop now (si :: rest) st =
        EditSale.restoreLoop now rest
          { st with products := st.products.map (fun p =>
            if p.id = si.product_id then
              update_product_updated_at now
                { p with current_stock := p.current_stock + si.quantity,
                         total_units_sold := p.total_units_sold - si.quantity }
            else p) } := by
      simp only [EditSale.restoreLoop, List.foldl_cons, rpcRestore, hmap,
        Option.getD_some]
    have hnext : ∀ p' ∈ ({ st with products := st.products.map (fun p =>
        if p.id = si.product_id then
          update_product_updated_at now
            { p with current_stock := p.current_stock + si.quantity,
                     total_units_sold := p.total_units_sold - si.quantity }
        else p) } : DBState).products, productChecks p' = true ∧
        soldQty p'.id rest ≤ p'.total_units_sold := by
      intro p' hp'
      simp only [List.mem_map] at hp'
      obtain ⟨p, hpm, rfl⟩ := hp'
      obtain ⟨hck, hle⟩ := hp p hpm
      rw [productChecks_iff] at hck
      have hrest : (0 : Int) ≤ soldQty p.id rest := soldQty_nonneg rest hqr
      by_cases hm : p.id = si.product_id
      · rw [if_pos hm]
        simp only [soldQty] at hle
        rw [if_pos hm.symm] at hle
        constructor
        · rw [productChecks_iff]
          simp only [update_product_updated_at]
          refine ⟨hck.1, hck.2.1, hck.2.2.1, ?_, ?_⟩ <;> omega
        · simp only [update_product_updated_at]
          omega
      · rw [if_neg hm]
        simp only [soldQty] at hle
        rw [if_neg (fun hx => hm hx.symm)] at hle
        exact ⟨productChecks_iff.mpr hck, by omega⟩
    obtain ⟨hsales, hitems, hsp, hff⟩ := ih
      { st with products := st.products.map (fun p =>
          if p.id = si.product_id then
            update_product_updated_at now
              { p with current_stock := p.current_stock + si.quantity,
                       total_units_sold := p.total_units_sold - si.quantity }
          else p) } hqr hnext
    rw [hstep]
    refine ⟨hsales, hitems, hsp, ?_⟩
    refine forall2_trans ?_ (forall2_map _ st.products) hff
    intro a b c hab hbc
    subst hab
    exact restoreShift_cons hbc

/-- A products UPDATE statement fails as soon as one matched row violates the
CHECK constraints after the rewrite. -/
theorem runProductsUpdate_eq_none {now pid : Nat} {f : Product → Product}
    {p : Product} :
    ∀ {ps : List Product}, p ∈ ps → p.id = pid →
      productChecks (update_product_updated_at now (f p)) = false →
      runProductsUpdate now pid f ps = none := by
  intro ps
  induction ps with
  | nil => intro hp; cases hp
  | cons a ps ih =>
    intro hp hid hbad
    rcases List.mem_cons.mp hp with heq | hpm
    · have hida : a.id = pid := heq ▸ hid
      have hbada : productChecks (update_product_updated_at now (f a)) = false :=
        heq ▸ hbad
      have hrow : runRowUpdate now pid f a = none := by
        simp only [runRowUpdate, if_pos hida, hbada]
        simp
      cases hx : runProductsUpdate now pid f ps <;>
        simp only [runProductsUpdate, hrow, hx]
    · have hrec := ih hpm hid hbad
      cases hy : runRowUpdate now pid f a <;>
        simp only [runProductsUpdate, hrec, hy]

/-- Filtering for a sale id that no element carries yields nothing. -/
theorem filter_sale_id_none {sid : Nat} :
    ∀ (l : List SaleItem), (∀ si ∈ l, si.sale_id ≠ sid) →
      l.filter (fun si => si.sale_id = sid) = [] := by
  intro l
  induction l with
  | nil => intro _; rfl
  | cons a l ih =>
    intro h
    have ha : decide (a.sale_id = sid) = false :=
      decide_eq_false (h a (List.mem_cons_self _ _))
    simp only [List.filter, ha]
    exact ih (fun x hx => h x (List.mem_cons_of_mem _ hx))

/-- Filtering for a sale id that every element carries keeps the list. -/
theorem filter_sale_id_all {sid : Nat} :
    ∀ (l : List SaleItem), (∀ si ∈ l, si.sale_id = sid) →
      l.filter (fun si => si.sale_id = sid) = l := by
  intro l
  induction l with
  | nil => intro _; rfl
  | cons a l ih =>
    intro h
    have ha : decide (a.sale_id = sid) = true :=
      decide_eq_true (h a (List.mem_cons_self _ _))
    simp only [List.filter, ha]
    rw [ih (fun x hx => h x (List.mem_cons_of_mem _ hx))]

/-- validateStock finds nothing exactly when no line item with a resolving
product asks for more than that product's current_stock. -/
theorem validateStock_none_iff {products : List Product} :
    ∀ {lineItems : List RecordSale.SaleLineItem},
      RecordSale.validateStock products lineItems = none ↔
      ∀ item ∈ lineItems, ∀ product,
        findProduct products item.product_id = some product →
        item.quantity ≤ product.current_stock := by
  intro lineItems
  induction lineItems with
  | nil => simp [RecordSale.validateStock]
  | cons item rest ih =>
    simp only [RecordSale.validateStock]
    cases hf : findProduct products item.product_id with
    | none =>
      constructor
      · intro h x hx q hq
        rcases List.mem_cons.mp hx with rfl | hx
        · rw [hf] at hq; cases hq
        · exact ih.mp h x hx q hq
      · intro h
        exact ih.mpr (fun x hx q hq => h x (List.mem_cons_of_mem _ hx) q hq)
    | some product =>
      simp only
      by_cases hlt : product.current_stock < item.quantity
      · rw [if_pos hlt]
        constructor
        · intro h; cases h
        · intro h
          have := h item (List.mem_cons_self _ _) product hf
          omega
      · rw [if_neg hlt]
        constructor
        · intro h x hx q hq
          rcases List.mem_cons.mp hx with rfl | hx
          · rw [hf] at hq
            injection hq with hq
            subst hq
            omega
          · exact ih.mp h x hx q hq
        · intro h
          exact ih.mpr (fun x hx q hq => h x (List.mem_cons_of_mem _ hx) q hq)

/-- When validateStock reports an error, some line item's resolving product
is short on stock and the message is the insufficient-stock text for it. -/
theorem validateStock_some_elim {products : List Product} :
    ∀ {lineItems : List RecordSale.SaleLineItem} {msg : String},
      RecordSale.validateStock products lineItems = some msg →
      ∃ item ∈ lineItems, ∃ product,
        findProduct products item.product_id = some product ∧
        product.current_stock < item.quantity ∧
        msg = RecordSale.insufficientMsg product item.quantity := by
  intro lineItems
  induction lineItems with
  | nil => intro msg h; simp [RecordSale.validateStock] at h
  | cons item rest ih =>
    intro msg h
    simp only [RecordSale.validateStock] at h
    cases hf : findProduct products item.product_id with
    | none =>
      rw [hf] at h
      obtain ⟨x, hx, q, h1, h2, h3⟩ := ih h
      exact ⟨x, List.mem_cons_of_mem _ hx, q, h1, h2, h3⟩
    | some product =>
      rw [hf] at h
      simp only at h
      by_cases hlt : product.current_stock < item.quantity
      · rw [if_pos hlt] at h
        injection h with h
        exact ⟨item, List.mem_cons_self _ _, product, hf, hlt, h.symm⟩
      · rw [if_neg hlt] at h
        obtain ⟨x, hx, q, h1, h2, h3⟩ := ih h
        exact ⟨x, List.mem_cons_of_mem _ hx, q, h1, h2, h3⟩

/-- Each built sale_items row snapshots the resolving product's price and
carries subtotal = price * quantity, pointwise along the line items. -/
theorem buildSaleItems_forall2 {products : List Product} {sid : Nat} :
    ∀ {lineItems : List RecordSale.SaleLineItem} {sis : List SaleItem},
      RecordSale.buildSaleItems products sid lineItems = some sis →
      List.Forall₂ (fun item si => ∃ product,
        findProduct products item.product_id = some product ∧
        si.sale_id = sid ∧ si.product_id = product.id ∧
        si.quantity = item.quantity ∧
        si.unit_price = product.unit_selling_price ∧
        si.subtotal = product.unit_selling_price * (item.quantity : Rat))
        lineItems sis := by
  intro lineItems
  induction lineItems with
  | nil =>
    intro sis h
    simp only [RecordSale.buildSaleItems, Option.some.injEq] at h
    subst h
    exact List.Forall₂.nil
  | cons item rest ih =>
    intro sis h
    simp only [RecordSale.buildSaleItems] at h
    cases hf : findProduct products item.product_id with
    | none => rw [hf] at h; cases h
    | some product =>
      rw [hf] at h
      cases hr : RecordSale.buildSaleItems products sid rest with
      | none => rw [hr] at h; cases h
      | some rest2 =>
        rw [hr] at h
        simp only [Option.some.injEq] at h
        subst h
        exact List.Forall₂.cons ⟨product, hf, rfl, rfl, rfl, rfl, rfl⟩ (ih hr)

/-- The calculateTotal fold, run from any accumulator, adds exactly the sum
of the built rows' subtotals when every quantity is positive. -/
theorem calculateTotal_foldl {products : List Product} {sid : Nat} :
    ∀ {lineItems : List RecordSale.SaleLineItem} {sis : List SaleItem},
      RecordSale.buildSaleItems products sid lineItems = some sis →
      (∀ si ∈ sis, (0 : Int) < si.quantity) →
      ∀ acc : Rat,
        List.foldl (fun total item =>
          match findProduct products item.product_id with
          | some product =>
            if (0 : Int) < item.quantity then
              total + product.unit_selling_price * (item.quantity : Rat)
            else total
          | none => total) acc lineItems =
        acc + (sis.map (fun si => si.subtotal)).sum := by
  intro lineItems
  induction lineItems with
  | nil =>
    intro sis h hq acc
    simp only [RecordSale.buildSaleItems, Option.some.injEq] at h
    subst h
    simp
  | cons item rest ih =>
    intro sis h hq acc
    simp only [RecordSale.buildSaleItems] at h
    cases hf : findProduct products item.product_id with
    | none => rw [hf] at h; cases h
    | some product =>
      rw [hf] at h
      cases hr : RecordSale.buildSaleItems products sid rest with
      | none => rw [hr] at h; cases h
      | some rest2 =>
        rw [hr] at h
        simp only [Option.some.injEq] at h
        subst h
        have hqi : (0 : Int) < item.quantity := by
          have hh := hq _ (List.mem_cons_self _ _)
          simpa using hh
        rw [List.foldl_cons]
        simp only [hf]
        rw [if_pos hqi,
          ih hr (fun x hx => hq x (List.mem_cons_of_mem _ hx)) _]
        simp only [List.map_cons, List.sum_cons]
        ring

/-- calculateTotal over a successfully built batch with positive quantities
is the sum of the batch's subtotals. -/
theorem calculateTotal_eq_sum {products : List Product} {sid : Nat}
    {lineItems : List RecordSale.SaleLineItem} {sis : List SaleItem}
    (hb : RecordSale.buildSaleItems products sid lineItems = some sis)
    (hq : ∀ si ∈ sis, (0 : Int) < si.quantity) :
    RecordSale.calculateTotal products lineItems =
      (sis.map (fun si => si.subtotal)).sum := by
  have := calculateTotal_foldl hb hq 0
  simpa [RecordSale.calculateTotal] using this

end Lemmas

section Claims

/-- C1: for every product and every sequence of SaleItem creations against
it, each insert of quantity q atomically moves q from current_stock to
total_units_sold, so after a successful batch every products row has lost
exactly the sum of the quantities sold against it from current_stock and
gained the same sum on total_units_sold. -/
theorem saleItems_decrement_stock_increment_sold (now : Nat)
    (items : List SaleItem) (st st' : DBState)
    (h : insertSaleItems now items st = some st') :
    List.Forall₂ (fun p p' => p'.id = p.id ∧
      p'.current_stock = p.current_stock - soldQty p.id items ∧
      p'.total_units_sold = p.total_units_sold + soldQty p.id items)
      st.products st'.products := by
  refine forall2_imp ?_ (insertSaleItems_eq_some h).2.2.2.2
  intro p p' hr
  obtain ⟨h1, -, -, -, -, -, -, h8, h9⟩ := hr
  exact ⟨h1, h8, h9⟩

/-- Concrete run of C1: selling 3 then 2 units of product 1 takes stock from
24 to 19 and total sold from 0 to 5. -/
theorem saleItems_decrement_stock_increment_sold_witness :
    insertSaleItems 7 [itemA1, itemA2] dbA = some dbA2 ∧
    List.Forall₂ (fun p p' => p'.id = p.id ∧
      p'.current_stock = p.current_stock - soldQty p.id [itemA1, itemA2] ∧
      p'.total_units_sold = p.total_units_sold + soldQty p.id [itemA1, itemA2])
      dbA.products dbA2.products :=
  ⟨by decide,
   saleItems_decrement_stock_increment_sold 7 [itemA1, itemA2] dbA dbA2
     (by decide)⟩

/-- C2: deleting a Sale invokes restore_stock_on_sale_delete once per
SaleItem of that sale before the cascading delete (the shape of
EditSale.handleDelete), and when the sale's items were the last writes
against a constraint-satisfying database this restores every product's
current_stock and total_units_sold to their values from just before the
sale's items were created. -/
theorem sale_delete_restores_counters (now now2 sid : Nat)
    (items : List SaleItem) (st st1 : DBState)
    (hfresh : ∀ si ∈ st.sale_items, si.sale_id ≠ sid)
    (hsid : ∀ si ∈ items, si.sale_id = sid)
    (hck : ∀ p ∈ st.products, productChecks p = true)
    (hins : insertSaleItems now items st = some st1) :
    List.Forall₂ (fun p p'' => p''.id = p.id ∧
      p''.current_stock = p.current_stock ∧
      p''.total_units_sold = p.total_units_sold)
      st.products (EditSale.handleDelete now2 sid st1).products := by
  obtain ⟨hchecks, hitems, hsales, hsp, hff⟩ := insertSaleItems_eq_some hins
  have hq : ∀ si ∈ items, (0 : Int) < si.quantity :=
    fun si h => (saleItemChecks_iff.mp (hchecks si h)).1
  have hck1 : ∀ p ∈ st1.products, productChecks p = true :=
    saleItems_checks_preserved hins hck
  have hfilter : st1.sale_items.filter (fun si => si.sale_id = sid) = items := by
    rw [hitems, List.filter_append, filter_sale_id_none _ hfresh,
      filter_sale_id_all _ hsid, List.nil_append]
  have hpre : ∀ p1 ∈ st1.products, productChecks p1 = true ∧
      soldQty p1.id items ≤ p1.total_units_sold := by
    intro p1 hp1
    refine ⟨hck1 p1 hp1, ?_⟩
    obtain ⟨p, hp, hr⟩ := forall2_mem_right hff p1 hp1
    obtain ⟨h1, -, -, -, -, -, -, -, h9⟩ := hr
    have hp0 : (0 : Int) ≤ p.total_units_sold :=
      (productChecks_iff.mp (hck p hp)).2.2.2.2
    rw [h1, h9]
    omega
  obtain ⟨-, -, -, hffR⟩ := restoreLoop_effect items st1 hq hpre
  have hprod : (EditSale.handleDelete now2 sid st1).products =
      (EditSale.restoreLoop now2 items st1).products := by
    simp only [EditSale.handleDelete, hfilter]
  rw [hprod]
  refine forall2_trans ?_ hff hffR
  intro a b c hab hbc
  obtain ⟨hb1, -, -, -, -, -, -, hb8, hb9⟩ := hab
  obtain ⟨hc1, -, -, -, -, -, -, hc8, hc9⟩ := hbc
  rw [hb1] at hc1 hc8 hc9
  refine ⟨hc1, ?_, ?_⟩ <;> omega

/-- Concrete run of C2: after the two-line sale against dbA, deleting the
sale brings product 1 back to stock 24 and total sold 0. -/
theorem sale_delete_restores_counters_witness :
    insertSaleItems 7 [itemA1, itemA2] dbA = some dbA2 ∧
    List.Forall₂ (fun p p'' => p''.id = p.id ∧
      p''.current_stock = p.current_stock ∧
      p''.total_units_sold = p.total_units_sold)
      dbA.products (EditSale.handleDelete 9 5 dbA2).products :=
  ⟨by decide,
   sale_delete_restores_counters 7 9 5 [itemA1, itemA2] dbA dbA2
     (by decide) (by decide) (by decide) (by decide)⟩

/-- C3 counterexample: with product 2 out of stock (current_stock = 0 <
quantity = 1), the SaleItem insert does not succeed: the products CHECK
constraint current_stock >= 0 makes the trigger's update fail, so the insert
errors and nothing is written. -/
theorem oversell_insert_fails :
    prodZ.current_stock < itemZ.quantity ∧ insertSaleItem 9 itemZ dbZ = none :=
  ⟨by decide, by decide⟩

/-- C3 (amended): the database DOES enforce current_stock >= 0: a successful
SaleItem insert leaves every row of the sold product with non-negative
stock, and an insert whose quantity exceeds the matched product's
current_stock fails and inserts nothing. -/
theorem stock_nonneg_enforced :
    (∀ (now : Nat) (si : SaleItem) (st st' : DBState),
      insertSaleItem now si st = some st' →
      ∀ p' ∈ st'.products, p'.id = si.product_id →
        0 ≤ p'.current_stock) ∧
    (∀ (now : Nat) (si : SaleItem) (st : DBState),
      (∃ p ∈ st.products, p.id = si.product_id ∧
        p.current_stock < si.quantity) →
      insertSaleItem now si st = none) := by
  constructor
  · intro now si st st' h p' hp' hpid
    obtain ⟨-, -, -, -, hff⟩ := insertSaleItem_eq_some h
    obtain ⟨p, hp, hr⟩ := forall2_mem_right hff p' hp'
    rcases hr with ⟨-, -, hck⟩ | ⟨hne, he⟩
    · exact (productChecks_iff.mp hck).2.2.2.1
    · exact absurd (he ▸ hpid) hne
  · intro now si st ⟨p, hp, hid, hlt⟩
    have hbad : productChecks
        (update_product_updated_at now (update_stock_on_sale si p)) = false := by
      rw [Bool.eq_false_iff]
      intro hc
      rw [productChecks_iff] at hc
      have := hc.2.2.2.1
      simp only [update_product_updated_at, update_stock_on_sale] at this
      omega
    have hnone := runProductsUpdate_eq_none hp hid hbad
    simp only [insertSaleItem, hnone]
    cases saleItemChecks si <;> simp

/-- Concrete run of C3 (amended): a successful sale leaves product 1 with
stock 21 >= 0, and the oversell attempt against the empty product errors. -/
theorem stock_nonneg_enforced_witness :
    (0 : Int) ≤ (dbB.products.getD 0 prodA).current_stock ∧
    insertSaleItem 9 itemZ dbZ = none :=
  ⟨stock_nonneg_enforced.1 7 itemA1 dbA dbB (by decide)
      (dbB.products.getD 0 prodA) (by decide) (by decide),
   stock_nonneg_enforced.2 9 itemZ dbZ ⟨prodZ, by decide, by decide, by decide⟩⟩

/-- C4 counterexample: a stock purchase also changes the product's
updated_at (the BEFORE UPDATE trigger refreshes it when the stock trigger
updates the row), so "no other product field is changed by a purchase" fails:
after purchC lands at time 7, product 1's updated_at is 7, not its prior 0. -/
theorem purchase_changes_updated_at :
    insertStockPurchase 7 purchC dbA = some dbC ∧
    (dbC.products.getD 0 prodA).updated_at ≠ prodA.updated_at :=
  ⟨by decide, by decide⟩

/-- C4 (amended): every successful sequence of StockPurchase creations adds
exactly the sum of the purchases' units_added to each product's
current_stock, and changes no product field other than current_stock and
updated_at (PurchaseShift lists every other field as preserved). -/
theorem purchases_increment_stock_frame (now : Nat)
    (sps : List StockPurchase) (st st' : DBState)
    (h : insertStockPurchases now sps st = some st') :
    List.Forall₂ (PurchaseShift sps) st.products st'.products :=
  (insertStockPurchases_eq_some h).2.2.2.2

/-- Concrete run of C4 (amended): the 24-unit restock takes product 1's
stock from 24 to 48 and leaves the other business fields alone. -/
theorem purchases_increment_stock_frame_witness :
    insertStockPurchases 7 [purchC] dbA = some dbP ∧
    List.Forall₂ (PurchaseShift [purchC]) dbA.products dbP.products :=
  ⟨by decide, purchases_increment_stock_frame 7 [purchC] dbA dbP (by decide)⟩

/-- C10 counterexample: restore_stock_on_sale_delete(1, 5) against a product
with total_units_sold = 0 does not modify the row at all: the products CHECK
constraint total_units_sold >= 0 rejects the update, so the claim's
unconditional "+q / -q" modification (and its "no bound on q" reading) fails
at this input. -/
theorem restore_rejected_when_oversized :
    restore_stock_on_sale_delete 9 1 5 dbA = none ∧
    prodA.total_units_sold - (5 : Int) < 0 :=
  ⟨by decide, by decide⟩

/-- C10 (amended): when restore_stock_on_sale_delete(p, q) succeeds it
touches only products rows whose id is p, rewriting exactly current_stock
(+q), total_units_sold (-q) and updated_at (BEFORE UPDATE trigger), leaving
every other row and every other table untouched; the call fails (changing
nothing) when the adjusted counters would violate the products CHECK
constraints, so q is effectively bounded by the table constraints. -/
theorem restore_stock_frame (now pid : Nat) (q : Int) (st st' : DBState)
    (h : restore_stock_on_sale_delete now pid q st = some st') :
    st'.sales = st.sales ∧ st'.sale_items = st.sale_items ∧
    st'.stock_purchases = st.stock_purchases ∧
    List.Forall₂ (fun p p' =>
      (p.id = pid ∧ p' = update_product_updated_at now
          { p with current_stock := p.current_stock + q,
                   total_units_sold := p.total_units_sold - q }) ∨
      (p.id ≠ pid ∧ p' = p)) st.products st'.products := by
  simp only [restore_stock_on_sale_delete] at h
  cases hps : runProductsUpdate now pid
      (fun p => { p with current_stock := p.current_stock + q,
                         total_units_sold := p.total_units_sold - q })
      st.products with
  | none => rw [hps] at h; exact absurd h (by simp)
  | some ps =>
    rw [hps] at h
    simp only [Option.some.injEq] at h
    subst h
    refine ⟨rfl, rfl, rfl, ?_⟩
    refine forall2_imp ?_ (runProductsUpdate_forall2 hps)
    intro p p' hr
    rcases runRowUpdate_eq_some hr with ⟨h1, h2, -⟩ | ⟨h1, h2⟩
    · exact Or.inl ⟨h1, h2⟩
    · exact Or.inr ⟨h1, h2⟩

/-- Concrete run of C10 (amended): restoring 5 units to prodD (sold 5,
stock 19) rewrites the row to stock 24, sold 0, updated_at 9. -/
theorem restore_stock_frame_witness :
    restore_stock_on_sale_delete 9 1 5 dbD = some dbD2 ∧
    List.Forall₂ (fun p p' =>
      (p.id = 1 ∧ p' = update_product_updated_at 9
          { p with current_stock := p.current_stock + 5,
                   total_units_sold := p.total_units_sold - 5 }) ∨
      (p.id ≠ 1 ∧ p' = p)) dbD.products dbD2.products :=
  ⟨by decide, (restore_stock_frame 9 1 5 dbD dbD2 (by decide)).2.2.2⟩

/-- C9: the recent-sales list filter (calendar-day comparison, isToday) and
the metrics query filter (a [date-string, date-string] range over full
timestamps) are not equivalent membership tests: for every current time
there is a sale timestamp on the same day that isToday accepts and the
metrics range rejects. -/
theorem dashboard_today_filters_inequivalent (now : Nat) :
    ∃ t, Dashboard.isToday now t = true ∧
      Dashboard.metricsTodayFilter now t = false := by
  refine ⟨Dashboard.dayOf now * 86400 + 1, ?_, ?_⟩
  · simp only [Dashboard.isToday, Dashboard.dayOf, decide_eq_true_eq]
    omega
  · simp only [Dashboard.metricsTodayFilter, Dashboard.dateStrTimestamp,
      Dashboard.dayOf]
    rw [decide_eq_false_iff_not]
    omega

/-- C8: both metric reductions define profitMargin as profit / revenue * 100
when revenue is strictly positive, and as exactly 0 when revenue is 0. -/
theorem profitMargin_zero_safe (salesData : List SaleItem)
    (purchasesData : List StockPurchase) :
    (0 < (ProductCard.fetchMetrics salesData purchasesData).totalRevenue →
      (ProductCard.fetchMetrics salesData purchasesData).profitMargin =
        (ProductCard.fetchMetrics salesData purchasesData).profit /
          (ProductCard.fetchMetrics salesData purchasesData).totalRevenue * 100) ∧
    ((ProductCard.fetchMetrics salesData purchasesData).totalRevenue = 0 →
      (ProductCard.fetchMetrics salesData purchasesData).profitMargin = 0) ∧
    (0 < (ProductView.fetchData salesData purchasesData).totalRevenue →
      (ProductView.fetchData salesData purchasesData).profitMargin =
        (ProductView.fetchData salesData purchasesData).profit /
          (ProductView.fetchData salesData purchasesData).totalRevenue * 100) ∧
    ((ProductView.fetchData salesData purchasesData).totalRevenue = 0 →
      (ProductView.fetchData salesData purchasesData).profitMargin = 0) := by
  refine ⟨?_, ?_, ?_, ?_⟩ <;>
    intro h <;>
    simp only [ProductCard.fetchMetrics, ProductView.fetchData] at h ⊢
  · rw [if_pos h]
  · rw [h]
    simp
  · rw [if_pos h]
  · rw [h]
    simp

/-- C5: every sale the recording flow saves appends sale_items rows whose
subtotal is quantity times unit_price, with unit_price the resolving
product's unit_selling_price at submit time, and a sales header whose
total_amount is exactly the sum of those rows' subtotals. -/
theorem recordSale_totals (now sid : Nat) (products : List Product)
    (lineItems : List RecordSale.SaleLineItem) (notes : Option String)
    (st st2 : DBState)
    (h : RecordSale.handleSubmit now sid products lineItems notes st =
      (RecordSale.SubmitOutcome.saved, st2)) :
    ∃ sis : List SaleItem,
      RecordSale.buildSaleItems products sid lineItems = some sis ∧
      st2.sale_items = st.sale_items ++ sis ∧
      st2.sales = st.sales ++
        [{ id := sid, sale_date := now,
           total_amount := (sis.map (fun si => si.subtotal)).sum,
           notes := notes }] ∧
      (∀ si ∈ sis, si.subtotal = (si.quantity : Rat) * si.unit_price) ∧
      List.Forall₂ (fun item si => ∃ product,
        findProduct products item.product_id = some product ∧
        si.quantity = item.quantity ∧
        si.unit_price = product.unit_selling_price) lineItems sis := by
  simp only [RecordSale.handleSubmit] at h
  cases hv : RecordSale.validateStock products lineItems with
  | some m => rw [hv] at h; exact absurd h (by simp)
  | none =>
    rw [hv] at h
    by_cases ha : lineItems.any (fun item => item.product_id = none) = true
    · rw [if_pos ha] at h; exact absurd h (by simp)
    · rw [if_neg ha] at h
      cases hsale : insertSale now
          { id := sid, sale_date := now,
            total_amount := RecordSale.calculateTotal products lineItems,
            notes := notes } st with
      | none => rw [hsale] at h; exact absurd h (by simp)
      | some st1 =>
        rw [hsale] at h
        simp only at h
        cases hb : RecordSale.buildSaleItems products sid lineItems with
        | none => rw [hb] at h; exact absurd h (by simp)
        | some sis =>
          rw [hb] at h
          simp only at h
          cases hi : insertSaleItems now sis st1 with
          | none => rw [hi] at h; exact absurd h (by simp)
          | some stf =>
            rw [hi] at h
            simp only [Prod.mk.injEq] at h
            obtain ⟨-, hst⟩ := h
            subst hst
            obtain ⟨hchecks, hitems, hsales, -, -⟩ := insertSaleItems_eq_some hi
            obtain ⟨-, hst1⟩ := insertSale_eq_some hsale
            have hq : ∀ si ∈ sis, (0 : Int) < si.quantity :=
              fun si hsi => (saleItemChecks_iff.mp (hchecks si hsi)).1
            have htot : RecordSale.calculateTotal products lineItems =
                (sis.map (fun si => si.subtotal)).sum :=
              calculateTotal_eq_sum hb hq
            refine ⟨sis, rfl, ?_, ?_, ?_, ?_⟩
            · rw [hitems, hst1]
            · rw [hsales, hst1, ← htot]
            · intro si hsi
              obtain ⟨item, hitem, product, hf, -, -, hqty, hprice, hsub⟩ :=
                forall2_mem_right (buildSaleItems_forall2 hb) si hsi
              rw [hsub, hprice, hqty]
              ring
            · refine forall2_imp ?_ (buildSaleItems_forall2 hb)
              intro item si hrel
              obtain ⟨product, hf, -, -, hqty, hprice, -⟩ := hrel
              exact ⟨product, hf, hqty, hprice⟩

attribute [local semireducible] Rat.mul Rat.add Rat.sub Rat.inv in
/-- Concrete run of C5: submitting the one-line sale of 3 units of product 1
against dbA saves a sale whose header total is the single row's subtotal. -/
theorem recordSale_totals_witness :
    ∃ sis : List SaleItem,
      RecordSale.buildSaleItems [prodA] 5 [lineA] = some sis ∧
      dbE.sale_items = dbA.sale_items ++ sis ∧
      dbE.sales = dbA.sales ++
        [{ id := 5, sale_date := 7,
           total_amount := (sis.map (fun si => si.subtotal)).sum,
           notes := none }] ∧
      (∀ si ∈ sis, si.subtotal = (si.quantity : Rat) * si.unit_price) ∧
      List.Forall₂ (fun item si => ∃ product,
        findProduct [prodA] item.product_id = some product ∧
        si.quantity = item.quantity ∧
        si.unit_price = product.unit_selling_price) [lineA] sis :=
  recordSale_totals 7 5 [prodA] [lineA] none dbA dbE (by decide)

/-- C6: every stock_purchases record the restock flow creates has
total_cost = batches_purchased * cost_per_batch (with cost_per_batch the
cost entered on the form, possibly different from the product's stored
default) and units_added = batches_purchased * units_per_batch of the
selected product at submit time. -/
theorem restock_record_correct (now purchaseId : Nat)
    (products : List Product) (selectedProductId : Option Nat)
    (batchesPurchased : Option Int) (costPerBatch : Option Rat)
    (notes : Option String) (st : DBState) (sp : StockPurchase)
    (res : Option DBState)
    (h : Restock.handleSubmit now purchaseId products selectedProductId
      batchesPurchased costPerBatch notes st = some (sp, res)) :
    sp.total_cost = (sp.batches_purchased : Rat) * sp.cost_per_batch ∧
    ∃ product, findProduct products selectedProductId = some product ∧
      sp.product_id = product.id ∧
      sp.units_added = sp.batches_purchased * product.units_per_batch ∧
      batchesPurchased = some sp.batches_purchased ∧
      costPerBatch = some sp.cost_per_batch := by
  simp only [Restock.handleSubmit] at h
  cases hsel : selectedProductId with
  | none => rw [hsel] at h; simp only at h; cases h
  | some pid =>
    rw [hsel] at h
    cases hf : findProduct products (some pid) with
    | none => rw [hf] at h; simp only at h; cases h
    | some product =>
      rw [hf] at h
      cases hbp : batchesPurchased with
      | none => rw [hbp] at h; simp only at h; cases h
      | some b =>
        rw [hbp] at h
        cases hcp : costPerBatch with
        | none => rw [hcp] at h; simp only at h; cases h
        | some c =>
          rw [hcp] at h
          simp only [Option.some.injEq, Prod.mk.injEq] at h
          obtain ⟨hsp, -⟩ := h
          subst hsp
          have hf2 : products.find? (fun p => p.id = pid) = some product := by
            simpa [findProduct] using hf
          have hid : product.id = pid := by
            have h3 := List.find?_some hf2
            simpa using h3
          refine ⟨?_, product, ?_, ?_, ?_, rfl, rfl⟩
          · simp [Restock.totalCost]
          · simp [hf]
          · exact hid.symm
          · simp only [Restock.unitsAdded]
            ring

/-- Concrete run of C6: restocking 2 batches of product 1 at an entered
cost of 55 yields total_cost 110 = 2 * 55 and units_added 24 = 2 * 12. -/
theorem restock_record_correct_witness :
    spW.total_cost = (spW.batches_purchased : Rat) * spW.cost_per_batch ∧
    ∃ product, findProduct [prodA] (some 1) = some product ∧
      spW.product_id = product.id ∧
      spW.units_added = spW.batches_purchased * product.units_per_batch ∧
      (some 2 : Option Int) = some spW.batches_purchased ∧
      (some 55 : Option Rat) = some spW.cost_per_batch :=
  restock_record_correct 7 31 [prodA] (some 1) (some 2) (some 55) none dbA
    spW (insertStockPurchase 7 spW dbA) rfl

/-- C7: the sale submit path rejects before any write exactly when some line
item with a resolving product asks for more than its current_stock or some
line item has no product selected; on rejection the database is untouched,
and a stock rejection surfaces the insufficient-stock message naming the
product and the available and requested quantities. -/
theorem recordSale_validation (now sid : Nat) (products : List Product)
    (lineItems : List RecordSale.SaleLineItem) (notes : Option String)
    (st : DBState) :
    ((∃ msg, (RecordSale.handleSubmit now sid products lineItems notes st).1 =
        RecordSale.SubmitOutcome.rejected msg) ↔
      ((∃ item ∈ lineItems, ∃ product,
          findProduct products item.product_id = some product ∧
          product.current_stock < item.quantity) ∨
        (∃ item ∈ lineItems, item.product_id = none))) ∧
    (∀ msg,
      (RecordSale.handleSubmit now sid products lineItems notes st).1 =
        RecordSale.SubmitOutcome.rejected msg →
      (RecordSale.handleSubmit now sid products lineItems notes st).2 = st) ∧
    (∀ msg, RecordSale.validateStock products lineItems = some msg →
      (RecordSale.handleSubmit now sid products lineItems notes st).1 =
        RecordSale.SubmitOutcome.rejected msg ∧
      ∃ item ∈ lineItems, ∃ product,
        findProduct products item.product_id = some product ∧
        product.current_stock < item.quantity ∧
        msg = RecordSale.insufficientMsg product item.quantity) := by
  cases hv : RecordSale.validateStock products lineItems with
  | some m =>
    have hh : RecordSale.handleSubmit now sid products lineItems notes st =
        (RecordSale.SubmitOutcome.rejected m, st) := by
      simp only [RecordSale.handleSubmit, hv]
    refine ⟨?_, ?_, ?_⟩
    · constructor
      · intro _
        obtain ⟨x, hx, q, h1, h2, -⟩ := validateStock_some_elim hv
        exact Or.inl ⟨x, hx, q, h1, h2⟩
      · intro _
        exact ⟨m, by rw [hh]⟩
    · intro msg _
      rw [hh]
    · intro msg hmsg
      injection hmsg with hmsg
      subst hmsg
      exact ⟨by rw [hh], validateStock_some_elim hv⟩
  | none =>
    by_cases ha : lineItems.any (fun item => item.product_id = none) = true
    · have hh : RecordSale.handleSubmit now sid products lineItems notes st =
          (RecordSale.SubmitOutcome.rejected
            "Please select a product for all line items", st) := by
        simp only [RecordSale.handleSubmit, hv]
        rw [if_pos ha]
      refine ⟨?_, ?_, ?_⟩
      · constructor
        · intro _
          refine Or.inr ?_
          obtain ⟨x, hx, hxnone⟩ := List.any_eq_true.mp ha
          exact ⟨x, hx, by simpa using hxnone⟩
        · intro _
          exact ⟨"Please select a product for all line items", by rw [hh]⟩
      · intro msg _
        rw [hh]
      · intro msg hmsg
        cases hmsg
    · have hno : ∀ msg,
          (RecordSale.handleSubmit now sid products lineItems notes st).1 ≠
            RecordSale.SubmitOutcome.rejected msg := by
        intro msg
        simp only [RecordSale.handleSubmit, hv]
        rw [if_neg ha]
        cases h1 : insertSale now
            { id := sid, sale_date := now,
              total_amount := RecordSale.calculateTotal products lineItems,
              notes := notes } st with
        | none => simp [h1]
        | some st1 =>
          cases h2 : RecordSale.buildSaleItems products sid lineItems with
          | none => simp [h1, h2]
          | some sis =>
            cases h3 : insertSaleItems now sis st1 with
            | none => simp [h1, h2, h3]
            | some stf => simp [h1, h2, h3]
      refine ⟨?_, ?_, ?_⟩
      · constructor
        · intro ⟨msg, hmsg⟩
          exact absurd hmsg (hno msg)
        · intro hr
          rcases hr with ⟨item, hitem, product, hf, hlt⟩ | ⟨item, hitem, hnone⟩
          · have := validateStock_none_iff.mp hv item hitem product hf
            omega
          · refine absurd (List.any_eq_true.mpr ⟨item, hitem, ?_⟩) ha
            simpa using hnone
      · intro msg hmsg
        exact absurd hmsg (hno msg)
      · intro msg hmsg
        cases hmsg

/-- Concrete run of C7: asking for 100 units of product 1 (stock 24) is
rejected with the named insufficient-stock message and the database is
untouched. -/
theorem recordSale_validation_witness :
    (RecordSale.handleSubmit 7 5 [prodA] [lineBig] none dbA).1 =
      RecordSale.SubmitOutcome.rejected
        (RecordSale.insufficientMsg prodA 100) ∧
    (RecordSale.handleSubmit 7 5 [prodA] [lineBig] none dbA).2 = dbA :=
  have hmain := recordSale_validation 7 5 [prodA] [lineBig] none dbA
  have h3 := hmain.2.2 (RecordSale.insufficientMsg prodA 100) rfl
  ⟨h3.1, hmain.2.1 _ h3.1⟩

/-- Concrete run of C8: with one 24-revenue sale item the margin is the
profit share of revenue; with no records the margin is exactly 0. -/
theorem profitMargin_zero_safe_witness :
    (ProductCard.fetchMetrics [itemA1] []).profitMargin =
      (ProductCard.fetchMetrics [itemA1] []).profit /
        (ProductCard.fetchMetrics [itemA1] []).totalRevenue * 100 ∧
    (ProductCard.fetchMetrics [] []).profitMargin = 0 :=
  ⟨(profitMargin_zero_safe [itemA1] []).1
      (by norm_num [ProductCard.fetchMetrics, List.foldl, itemA1]),
   (profitMargin_zero_safe [] []).2.1 rfl⟩

end Claims

end SideHustle
